import Mathlib

/-!
Shallow embedding of `api/index.py` (the "智能记忆库" V6.4 note-taking MCP
service) and verification of its specification claims.

Modelling conventions:
- Python strings are Lean `String`s; all string primitives used by the source
  (`in`, `lower`, `strip`, `split`, `startswith`, `endswith`, slicing,
  `f.read(n)`) are re-implemented over `String.data` (`List Char`) so that
  every definition is executable and provable by list reasoning.
- Machine-level concerns do not arise (no integer arithmetic beyond `Nat`).
- The WebDAV remote store is an external collaborator; it is modelled as a
  `Vault` record of oracles: the result of `client.list`, of
  `client.download_sync` per file name, and of `client.upload_sync` per path.
  All remote paths live directly under `VAULT_PATH`, so download/upload are
  keyed by the bare file name.
- Python exceptions are modelled by `PyResult`: `.httpExc status detail` is a
  raised `fastapi.HTTPException`, `.exc msg` any other raised exception
  (`str(e) = msg`), `.ok` a normal return.  `str(...)` of an `HTTPException`
  follows Starlette: `f"{status_code}: {detail}"`.
- The regex class `\w` (Unicode word character) and the external `jieba`
  segmenter are oracles carried in `Env` (with `asciiWordChar` as a concrete
  instance used for witnesses); `\s` is modelled by `Char.isWhitespace`,
  `\d` by `Char.isDigit`, `[一-龥]` by `isCJK`.
- The wall clock is injected: `Env` carries the strings the source obtains
  from `get_beijing_time().strftime(...)` once per request.
- FastAPI's `Depends(verify_api_key)` runs before `mcp_endpoint`; the auth
  gate is therefore modelled separately (`verify_api_key`) and `mcp_endpoint`
  models the already-authenticated request body handling.
-/

/-! ## String primitives over `String.data` -/

/-- The CJK range `一-龥` appearing in the source regexes. -/
def isCJK (c : Char) : Bool := 0x4e00 ≤ c.toNat && c.toNat ≤ 0x9fa5

/-- `len(s)` in characters. -/
def strLen (s : String) : Nat := s.data.length

/-- `s[:n]` / `f.read(n)` (character-based). -/
def strTake (s : String) (n : Nat) : String := ⟨s.data.take n⟩

/-- `s[n:]` (character-based). -/
def strDrop (s : String) (n : Nat) : String := ⟨s.data.drop n⟩

/-- Python `s.lower()`.  `Char.toLower` only maps ASCII letters; the service's
keywords, file names and CJK text are unaffected by this approximation. -/
def pyLower (s : String) : String := ⟨s.data.map Char.toLower⟩

/-- `hasSub hay sub = true` iff `sub` occurs contiguously in `hay`:
models Python `sub in hay`. -/
def hasSub : List Char → List Char → Bool
  | [], sub => sub.isEmpty
  | c :: t, sub => (sub = (c :: t).take sub.length) || hasSub t sub

/-- Python `sub in hay` on strings. -/
def strContains (hay sub : String) : Bool := hasSub hay.data sub.data

/-- Python `s.startswith(pre)`. -/
def pyStartsWith (s pre : String) : Bool := pre.data = s.data.take pre.data.length

/-- Python `s.endswith(suf)`. -/
def pyEndsWith (s suf : String) : Bool :=
  suf.data = s.data.drop (s.data.length - suf.data.length)

/-- Python `s.strip()` (whitespace from both ends). -/
def pyTrim (s : String) : String :=
  ⟨((s.data.dropWhile Char.isWhitespace).reverse.dropWhile Char.isWhitespace).reverse⟩

/-- Helper for `pySplit`: accumulates the current word (reversed). -/
def splitWsAux : List Char → List Char → List String
  | [], acc => if acc.isEmpty then [] else [⟨acc.reverse⟩]
  | c :: rest, acc =>
    if c.isWhitespace then
      if acc.isEmpty then splitWsAux rest [] else ⟨acc.reverse⟩ :: splitWsAux rest []
    else splitWsAux rest (c :: acc)

/-- Python `s.split()`: split on whitespace runs, no empty words. -/
def pySplit (s : String) : List String := splitWsAux s.data []

/-- Python `s.isdigit()` (ASCII digits; nonempty). -/
def pyIsDigit (s : String) : Bool := !s.data.isEmpty && s.data.all Char.isDigit

/-- `args.get(k, d)` on a JSON argument object modelled as an association list. -/
def argGetD (args : List (String × String)) (k d : String) : String :=
  ((args.find? (fun p => p.1 == k)).map (fun p => p.2)).getD d

/-! ## Python exception model -/

/-- Outcome of running a Python function that may raise. -/
inductive PyResult (α : Type) where
  | ok (a : α)
  | httpExc (status : Nat) (detail : String)
  | exc (msg : String)
deriving DecidableEq

/-- Did the call return normally? -/
def PyResult.isOk : PyResult α → Bool
  | .ok _ => true
  | _ => false

/-- Did the call raise a `fastapi.HTTPException`? -/
def PyResult.isHttpExc : PyResult α → Bool
  | .httpExc _ _ => true
  | _ => false

/-- Starlette's `HTTPException.__str__`: `f"{self.status_code}: {self.detail}"`. -/
def strOfHTTPException (status : Nat) (detail : String) : String :=
  toString status ++ ": " ++ detail

/-! ## Configuration, environment and remote store -/

/-- `VAULT_PATH = "/Ethan记忆库/AI_Memory"` (line 64). -/
def VAULT_PATH : String := "/Ethan记忆库/AI_Memory"

/-- Per-request environment: process configuration, injected clock
(`get_beijing_time().strftime(...)` outputs) and external-library oracles. -/
structure Env where
  /-- Oracle for the regex class `\w` (Unicode word character). -/
  isWordChar : Char → Bool
  /-- Oracle for `jieba.lcut` (external segmenter; may raise). -/
  jieba_lcut : String → Except String (List String)
  /-- `webdav_config['webdav_login']` (`NUTSTORE_EMAIL`, may be empty). -/
  login : String
  /-- `beijing_now.strftime('%Y%m%d')`. -/
  dateStamp : String
  /-- `beijing_now.strftime('%Y年%m月%d日 %H:%M:%S')`. -/
  timeStamp : String
  /-- `beijing_now.strftime('%H:%M')`. -/
  hm : String
  /-- `['周一',...][beijing_now.weekday()]`. -/
  weekday : String

/-- The remote WebDAV store as seen through the client, keyed by bare file
name (every path in the source is `f"{VAULT_PATH}/{filename}"`). -/
structure Vault where
  /-- Result of `client.list(VAULT_PATH)` (error = raised exception message). -/
  listResult : Except String (List String)
  /-- Result of `client.download_sync` + local read for a given file name. -/
  download : String → Except String String
  /-- Result of `client.upload_sync` for a given remote path. -/
  uploadResult : String → Except String Unit

/-- `create_webdav_client` (lines 66-73) raises HTTP 500 when
`webdav_config['webdav_login']` is empty; `disable_check=True` means client
construction performs no network call. -/
def CONFIG_MISSING_DETAIL : String := "❌ 服务器未配置坚果云凭证"

/-! ## Auth gate (`verify_api_key`, lines 21-44) -/

/-- Detail of the 401 raised when the `Authorization` header is missing/empty. -/
def AUTH_MISSING_DETAIL : String := "🔒 请提供API密钥（格式：Bearer your_token 或直接your_token）"

/-- Detail of the 403 raised on a token mismatch. -/
def AUTH_BAD_DETAIL : String := "🚫 API密钥错误或已过期"

/-- `API_SECRET = os.environ.get("API_SECRET", "123456")` (line 21). -/
def resolveApiSecret (envVar : Option String) : String := envVar.getD "123456"

/-- Outcome of the auth dependency: accepted, or raised 401/403. -/
inductive AuthResult where
  | ok
  | unauthorized (detail : String)
  | forbidden (detail : String)
deriving DecidableEq

/-- Token extraction (lines 33-36): strip a `"Bearer "` prefix if present
(`auth_header.split(" ", 1)[1]` is exactly "drop the first 7 characters"
when the header starts with `"Bearer "`). -/
def extractToken (h : String) : String :=
  if pyStartsWith h "Bearer " then strDrop h 7 else h

/-- `verify_api_key` (lines 24-44).  A missing header arrives as `none`; an
empty header string is also falsy in Python (`if not auth_header`). -/
def verify_api_key (secret : String) : Option String → AuthResult
  | none => .unauthorized AUTH_MISSING_DETAIL
  | some h =>
    if h = "" then .unauthorized AUTH_MISSING_DETAIL
    else if extractToken h = "" ∨ extractToken h ≠ secret then .forbidden AUTH_BAD_DETAIL
    else .ok

/-! ## Note codec (`get_simple_filename`, `safe_save_note`, lines 81-136) -/

/-- A character survives `re.sub(r'[^\w\s一-龥-]', '', title)`
iff it is a word character, whitespace, in the CJK range, or `-`. -/
def keptChar (env : Env) (c : Char) : Bool :=
  env.isWordChar c || c.isWhitespace || isCJK c || c = '-'

/-- `safe_title = re.sub(r'[^\w\s一-龥-]', '', title).strip()` (line 95). -/
def safe_title (env : Env) (title : String) : String :=
  pyTrim ⟨title.data.filter (keptChar env)⟩

/-- `get_simple_filename` (lines 81-84): `f"{%Y%m%d}【每日总结】.md"`. -/
def get_simple_filename (env : Env) : String := env.dateStamp ++ "【每日总结】.md"

/-- File-name derivation inside `safe_save_note` (lines 95-103). -/
def derivedFilename (env : Env) (title : String) : String :=
  if safe_title env title ≠ "" then
    env.dateStamp ++ "_" ++ safe_title env title ++ ".md"
  else get_simple_filename env

/-- The markdown body `md_content` (lines 105-112). -/
def render_md_content (env : Env) (title content filename : String) : String :=
  "# " ++ title ++ "\n\n" ++ content ++ "\n\n---\n📅 创建时间: " ++ env.timeStamp ++
    "\n📍 存储位置: " ++ VAULT_PATH ++ "/" ++ filename ++ "\n"

/-- Effect of a successful `client.upload_sync` on the remote store: the file
becomes listed (WebDAV overwrites silently, so no duplicate entry) and
downloadable with the uploaded body. -/
def vaultAfterUpload (v : Vault) (filename content : String) : Vault :=
  { listResult := v.listResult.map (fun l => if filename ∈ l then l else l ++ [filename])
    download := fun f => if f = filename then .ok content else v.download f
    uploadResult := v.uploadResult }

/-- `safe_save_note` (lines 86-136).  The temporary-file staging always
succeeds locally and is cleaned up in `finally`; the fallible step is the
upload.  Any exception in the `try` block is re-raised as HTTP 500 with
detail `f"❌ 保存失败: {str(e)}"`. -/
def SAVE_FAIL_MSG : String := "❌ 保存失败: "

/-- `safe_save_note`, returning the tool result and the store after the call. -/
def safe_save_note (env : Env) (v : Vault) (title content : String) :
    PyResult String × Vault :=
  if env.login = "" then (.httpExc 500 CONFIG_MISSING_DETAIL, v)
  else
    let filename := derivedFilename env title
    let md := render_md_content env title content filename
    match v.uploadResult (VAULT_PATH ++ "/" ++ filename) with
    | .error e => (.httpExc 500 (SAVE_FAIL_MSG ++ e), v)
    | .ok _ =>
      (.ok ("✅ 笔记已保存！\n📁 文件名: " ++ filename ++ "\n📅 时间: " ++ env.hm),
        vaultAfterUpload v filename md)

/-! ## Note reading (`read_note_content_safe`, `safe_read_note`) -/

/-- `read_note_content_safe` (lines 138-157): download a file and read at most
`limit` characters; any failure is swallowed and rendered as the string
`f"读取失败: {str(e)}"` — this function never raises. -/
def read_note_content_safe (v : Vault) (filename : String) (limit : Nat) : String :=
  match v.download filename with
  | .ok s => strTake s limit
  | .error e => "读取失败: " ++ e

/-- Leftmost run of 8 consecutive ASCII digits: `re.search(r'(\d{8})', s)`. -/
def findDigitRun8 : List Char → Option (List Char)
  | [] => none
  | c :: rest =>
    if ((c :: rest).take 8).length = 8 && ((c :: rest).take 8).all Char.isDigit then
      some ((c :: rest).take 8)
    else findDigitRun8 rest

/-- Date extraction and formatting used by `safe_read_note` and the search
renderer (lines 241-246, 264-269, 317-323): the matched 8-digit group becomes
`YYYY年MM月DD日`; with no match the placeholder `某天` is used. -/
def formattedDateOf (filename : String) : String :=
  match findDigitRun8 filename.data with
  | some ds =>
    String.mk (ds.take 4) ++ "年" ++ String.mk ((ds.drop 4).take 2) ++ "月" ++
      String.mk ((ds.drop 6).take 2) ++ "日"
  | none => "某天"

/-- Truncation marker appended by `safe_read_note` (line 315). -/
def TRUNC_MARKER : String := "\n\n... (内容过长，已截断)"

/-- Lines 311-315: `content = f.read(5000)`; if `len(content) >= 5000`,
append the truncation marker. -/
def truncateContent (s : String) : String :=
  let content := strTake s 5000
  if 5000 ≤ strLen content then strTake content 5000 ++ TRUNC_MARKER else content

/-- Detail of the HTTP 400 constructed for an illegal file name (line 302). -/
def INVALID_NAME_DETAIL : String := "❌ 文件名不合法"

/-- Detail of the HTTP 500 wrapping any exception of the `try` block (line 330). -/
def READ_FAIL_MSG : String := "❌ 读取失败: "

/-- `safe_read_note` (lines 289-337), instrumented with a flag recording
whether `client.download_sync` (the only network call) was attempted.
Control flow: append `.md` if missing; `create_webdav_client` (config gate,
no network); then inside `try`: the `'..'`/`'/'` validation raises HTTP 400,
but `except Exception` catches it and re-raises HTTP 500 with
`f"❌ 读取失败: {str(e)}"`; a download/read failure takes the same path. -/
def safe_read_note_traced (env : Env) (v : Vault) (filename0 : String) :
    PyResult String × Bool :=
  let filename := if pyEndsWith filename0 ".md" then filename0 else filename0 ++ ".md"
  if env.login = "" then (.httpExc 500 CONFIG_MISSING_DETAIL, false)
  else if strContains filename ".." || strContains filename "/" then
    (.httpExc 500 (READ_FAIL_MSG ++ strOfHTTPException 400 INVALID_NAME_DETAIL), false)
  else
    match v.download filename with
    | .error e => (.httpExc 500 (READ_FAIL_MSG ++ e), true)
    | .ok s =>
      (.ok ("这是你" ++ formattedDateOf filename ++ "的笔记内容：\n\n" ++ truncateContent s),
        true)

/-! ## Search (`enhanced_natural_search_notes`, lines 159-287) -/

/-- Reply when the vault has no `.md` files (line 170). -/
def NO_NOTES_MSG : String := "我在你的记忆库里没有找到任何笔记文件，可能还没有开始记录呢。"

/-- `keyword_lower in filename.lower()` (line 180). -/
def nameMatchB (kw filename : String) : Bool :=
  strContains (pyLower filename) (pyLower kw)

/-- 精确匹配 (line 195): `keyword_lower in content_lower`. -/
def exactMatchB (kw content : String) : Bool :=
  strContains (pyLower content) (pyLower kw)

/-- 包含匹配 (lines 200-206): some whitespace-split word of the lowered content
contains the keyword or is contained in it (only for `len(keyword) >= 2`). -/
def wordMatchB (kw content : String) : Bool :=
  decide (2 ≤ strLen kw) &&
    (pySplit (pyLower content)).any
      (fun w => strContains w (pyLower kw) || strContains (pyLower kw) w)

/-- 字符匹配 (lines 209-214): every character of the lowered keyword occurs
somewhere in the lowered content (only for `len(keyword) >= 2`). -/
def charMatchB (kw content : String) : Bool :=
  decide (2 ≤ strLen kw) &&
    (pyLower kw).data.all (fun c => (pyLower content).data.contains c)

/-- The sequential `content_match` computation (lines 192-214). -/
def contentMatchB (kw content : String) : Bool :=
  if exactMatchB kw content then true
  else if wordMatchB kw content then true
  else if charMatchB kw content then true
  else false

/-- `match_details` accumulated alongside `content_match`. -/
def matchDetails (kw content : String) : List String :=
  if exactMatchB kw content then ["精确匹配"]
  else if wordMatchB kw content then ["包含匹配"]
  else if charMatchB kw content then ["字符匹配"]
  else []

/-- One entry of `matched_files` (lines 218-224). -/
structure MatchInfo where
  filename : String
  name_match : Bool
  content_match : Bool
  preview : String
  match_details : List String
deriving DecidableEq

/-- Per-file match evaluation (loop body, lines 177-224).  The file's content
is `read_note_content_safe(client, filename, 3000)` — which never raises, so
the enclosing per-file `except: continue` never fires — and the preview is its
first 200 characters. -/
def fileMatch (v : Vault) (kw filename : String) : Option MatchInfo :=
  let content := read_note_content_safe v filename 3000
  if nameMatchB kw filename || contentMatchB kw content then
    some ⟨filename, nameMatchB kw filename, contentMatchB kw content,
      strTake content 200, matchDetails kw content⟩
  else none

/-- `md_files = [f for f in all_files if f.endswith('.md')]` (line 167). -/
def mdFilter (files : List String) : List String :=
  files.filter (fun f => pyEndsWith f ".md")

/-- `matched_files` built by the search loop over the listing. -/
def searchMatches (v : Vault) (files : List String) (kw : String) : List MatchInfo :=
  (mdFilter files).filterMap (fileMatch v kw)

/-- Single-match `match_type` wording (lines 248-254). -/
def matchTypeSingle (mi : MatchInfo) : String :=
  if mi.name_match && mi.content_match then "文件名和内容都"
  else if mi.name_match then "文件名" else "内容"

/-- Multi-match `match_type` wording (lines 271-277). -/
def matchTypeMulti (mi : MatchInfo) : String :=
  if mi.name_match && mi.content_match then "文件名和内容"
  else if mi.name_match then "文件名" else "内容"

/-- One numbered line of the multi-match reply (line 279). -/
def renderMultiLine (p : Nat × MatchInfo) : String :=
  toString p.1 ++ ". " ++ formattedDateOf p.2.filename ++ "的记录（" ++
    matchTypeMulti p.2 ++ "匹配）提到：" ++ p.2.preview ++ "...\n\n"

/-- Natural-language reply rendering (lines 231-284). -/
def renderSearchReply (kw : String) (matched : List MatchInfo) : String :=
  match matched with
  | [] =>
    "我在你的记忆库里搜索了『" ++ kw ++
      "』，但没有找到相关的笔记。可能你还没有记录过相关内容，或者换个关键词试试？"
  | [mi] =>
    "我在你的记忆库里找到了关于『" ++ kw ++ "』的记录，是在" ++
      formattedDateOf mi.filename ++ "的每日总结里（" ++ matchTypeSingle mi ++
      "匹配）。内容大概是：" ++ mi.preview ++ "..."
  | _ =>
    let header := "我在你的记忆库里找到了" ++ toString matched.length ++ "篇关于『" ++
      kw ++ "』的笔记：\n\n"
    let body := ((matched.take 3).enumFrom 1).foldl
      (fun acc p => acc ++ renderMultiLine p) header
    if 3 < matched.length then
      body ++ "还有" ++ toString (matched.length - 3) ++
        "篇相关记录，需要的话我可以帮你详细查看。"
    else body

/-- `enhanced_natural_search_notes` (lines 159-287), the uncached body.
`create_webdav_client()` runs before the `try`, so a missing configuration
raises HTTP 500 out of the function; every exception inside the `try`
(e.g. a failing `client.list`) is caught and rendered as the apology text. -/
def enhanced_natural_search_notes (env : Env) (v : Vault) (kw : String) :
    PyResult String :=
  if env.login = "" then .httpExc 500 CONFIG_MISSING_DETAIL
  else
    match v.listResult with
    | .error e => .ok ("抱歉，搜索你的记忆库时遇到了问题：" ++ e ++ "。请稍后再试。")
    | .ok files =>
      if (mdFilter files).isEmpty then .ok NO_NOTES_MSG
      else .ok (renderSearchReply kw (searchMatches v files kw))

/-! ## The `@lru_cache(maxsize=128)` memoization (lines 159-160) -/

/-- Cache lookup: first (most recent) binding of the keyword. -/
def cacheGet (c : List (String × String)) (k : String) : Option String :=
  (c.find? (fun p => p.1 == k)).map (fun p => p.2)

/-- Is the keyword currently cached? -/
def cacheHasKey (c : List (String × String)) (k : String) : Bool :=
  (c.find? (fun p => p.1 == k)).isSome

/-- LRU hit: return the cached text and move the entry to the front. -/
def lruHit (c : List (String × String)) (k : String) :
    Option (String × List (String × String)) :=
  match c.find? (fun p => p.1 == k) with
  | some p => some (p.2, (k, p.2) :: c.eraseP (fun q => q.1 == k))
  | none => none

/-- Process-lifetime operations touching the note store / search cache. -/
inductive Op where
  | search (k : String)
  | save (title content : String)

/-- Process state: the remote store plus the `lru_cache` contents
(most-recently-used first, at most 128 entries). -/
structure PState where
  vault : Vault
  cache : List (String × String)

/-- One operation.  A search first consults the cache (`functools.lru_cache`
keyed on the literal keyword string: hit returns the stored text and
refreshes recency; miss computes, stores, and evicts the least recently used
entry beyond capacity 128; a raised exception is not cached).  A save runs
`safe_save_note` and never touches the cache (no invalidation). -/
def stepOp (env : Env) (st : PState) : Op → PyResult String × PState
  | .search k =>
    match lruHit st.cache k with
    | some (t, c') => (.ok t, { st with cache := c' })
    | none =>
      match enhanced_natural_search_notes env st.vault k with
      | .ok t => (.ok t, { st with cache := ((k, t) :: st.cache).take 128 })
      | e => (e, st)
  | .save title content =>
    let r := safe_save_note env st.vault title content
    (r.1, { st with vault := r.2 })

/-- Run a sequence of operations, keeping only the final state. -/
def runOps (env : Env) (st : PState) (ops : List Op) : PState :=
  ops.foldl (fun s o => (stepOp env s o).2) st

/-! ## Tool dispatcher (`mcp_endpoint`, lines 427-514) -/

/-- Keyword extraction (`smart_extract_keyword`, lines 345-362); the first
step replaces every character outside `[\w一-龥\s]` by a space. -/
def cleanMsg (env : Env) (message : String) : String :=
  ⟨message.data.map (fun c =>
    if env.isWordChar c || isCJK c || c.isWhitespace then c else ' ')⟩

/-- The stop-word set of line 348. -/
def stopWords : List String :=
  ["的", "了", "在", "是", "我", "有", "和", "就", "不", "人", "都", "一", "一个",
   "上", "也", "很", "到", "说", "要", "去", "你", "会", "着", "没有", "看", "好",
   "自己", "这"]

/-- Maximal runs of CJK characters, collected left to right
(`re.findall(r'[一-龥]{2,}', message)` before the length filter). -/
def cjkRunsGo : List Char → List Char → List (List Char)
  | [], acc => if acc.isEmpty then [] else [acc.reverse]
  | c :: rest, acc =>
    if isCJK c then cjkRunsGo rest (c :: acc)
    else if acc.isEmpty then cjkRunsGo rest []
    else acc.reverse :: cjkRunsGo rest []

/-- `re.findall(r'[一-龥]{2,}', message)`. -/
def cjkRuns (message : String) : List String :=
  ((cjkRunsGo message.data []).filter (fun l => 2 ≤ l.length)).map String.mk

/-- Python `max(l, key=len)`: the first element of maximal length. -/
def maxByLen : List String → String
  | [] => ""
  | h :: t => t.foldl (fun acc w => if strLen acc < strLen w then w else acc) h

/-- `smart_extract_keyword` (lines 345-362).  `jieba.lcut` is external and may
raise; any such exception propagates to the caller. -/
def smart_extract_keyword (env : Env) (message : String) : Except String String :=
  match env.jieba_lcut (cleanMsg env message) with
  | .error e => .error e
  | .ok words =>
    match words.filter
        (fun w => 1 < strLen w && !stopWords.contains w && !pyIsDigit w) with
    | w :: _ => .ok w
    | [] =>
      match cjkRuns message with
      | [] => .ok ""
      | l => .ok (maxByLen (l))

/-- One tool entry of the static `tools/list` catalog. -/
structure ToolDecl where
  name : String
  description : String
  properties : List (String × String)
  required : List String
deriving DecidableEq

/-- The static tool catalog (lines 443-475). -/
def toolsCatalog : List ToolDecl :=
  [⟨"save_memory", "【写入】保存日记、笔记或对话",
      [("title", "string"), ("content", "string")], ["title", "content"]⟩,
   ⟨"search_memory", "【搜索】智能搜索笔记（自然语言回复）",
      [("keyword", "string")], ["keyword"]⟩,
   ⟨"read_memory", "【读取】读取笔记详情",
      [("filename", "string")], ["filename"]⟩,
   ⟨"get_world_time", "【时间】获取北京时间", [], []⟩,
   ⟨"smart_query", "【智能助手】分析对话，自动查找相关记忆",
      [("message", "string")], ["message"]⟩]

/-- `params.get("name")` printed by `f"未知工具: {name}"` (`None` when absent). -/
def displayToolName : Option String → String
  | some s => s
  | none => "None"

/-- The `try` block of the `tools/call` branch (lines 482-504): dispatch on
the tool name; unknown names produce a normal text result, not an error. -/
def toolOutcome (env : Env) (v : Vault) (name : Option String)
    (args : List (String × String)) : PyResult String :=
  if name = some "save_memory" then
    (safe_save_note env v (argGetD args "title" "") (argGetD args "content" "")).1
  else if name = some "search_memory" then
    enhanced_natural_search_notes env v (argGetD args "keyword" "")
  else if name = some "read_memory" then
    (safe_read_note_traced env v (argGetD args "filename" "")).1
  else if name = some "get_world_time" then
    .ok ("🕒 现在是" ++ env.timeStamp ++ "，" ++ env.weekday)
  else if name = some "smart_query" then
    match smart_extract_keyword env (argGetD args "message" "") with
    | .error m => .exc m
    | .ok kw =>
      let message := argGetD args "message" ""
      enhanced_natural_search_notes env v (if kw ≠ "" then kw else message)
  else .ok ("未知工具: " ++ displayToolName name)

/-- A parsed `POST /mcp` body: `method`, `id`, and for `tools/call` the
`params.name` / `params.arguments` fields. -/
structure McpRequest where
  method : String
  id : String
  toolName : Option String
  arguments : List (String × String)

/-- The JSON shapes inside a successful `result` field. -/
inductive McpResult where
  | initializeResult (protocolVersion serverName serverVersion : String)
  | toolsList (tools : List ToolDecl)
  | textContent (text : String)
  | empty
deriving DecidableEq

/-- A JSON-RPC response envelope: `{jsonrpc:"2.0", id, result}` or
`{jsonrpc:"2.0", id, error:{code, message}}`. -/
inductive McpResponse where
  | ok (id : String) (result : McpResult)
  | err (id : String) (code : Int) (message : String)
deriving DecidableEq

/-- Is this a successful `{result:{content:[{type:"text",text}]}}` envelope? -/
def McpResponse.isTextResult : McpResponse → Bool
  | .ok _ (.textContent _) => true
  | _ => false

/-- The `error.code` of a protocol-level error envelope, if any. -/
def McpResponse.errCode : McpResponse → Option Int
  | .err _ c _ => some c
  | _ => none

/-- `mcp_endpoint` (lines 427-514), after the auth dependency has accepted the
request.  The `tools/call` branch wraps `toolOutcome`: a raised
`HTTPException` becomes `{error:{code:-32000, message:detail}}`; any other
exception becomes a successful text envelope (the V6.3 "Kelivo" fix); an
unrecognized method falls through to `{jsonrpc, id, result: {}}`. -/
def mcp_endpoint (env : Env) (v : Vault) (req : McpRequest) : McpResponse :=
  if req.method = "initialize" then
    .ok req.id (.initializeResult "2024-11-05" "Ethan智能记忆库" "6.4")
  else if req.method = "tools/list" then
    .ok req.id (.toolsList toolsCatalog)
  else if req.method = "tools/call" then
    match toolOutcome env v req.toolName req.arguments with
    | .ok t => .ok req.id (.textContent t)
    | .httpExc _ d => .err req.id (-32000) d
    | .exc m =>
      .ok req.id (.textContent ("🔧 工具执行时遇到小状况: " ++ m ++ "。可能文件不存在，请换个词试试。"))
  else .ok req.id .empty

/-! ## Concrete instances used by witnesses and counterexamples -/

/-- ASCII instance of the `\w` oracle (alphanumeric or underscore). -/
def asciiWordChar (c : Char) : Bool := c.isAlphanum || c = '_'

/-- A concrete, fully configured environment at a fixed clock instant. -/
def env0 : Env :=
  { isWordChar := asciiWordChar
    jieba_lcut := fun _ => .ok []
    login := "user@example.com"
    dateStamp := "20260101"
    timeStamp := "2026年01月01日 00:00:00"
    hm := "00:00"
    weekday := "周四" }

/-- An empty, fully reachable vault. -/
def vEmpty : Vault :=
  { listResult := .ok []
    download := fun _ => .error "404 Not Found"
    uploadResult := fun _ => .ok () }

/-! ## Supporting lemmas on the string primitives -/

theorem strData_append (s t : String) : (s ++ t).data = s.data ++ t.data := by
  cases s; cases t; rfl

theorem hasSub_nil_right (l : List Char) : hasSub l [] = true := by
  induction l with
  | nil => rfl
  | cons c t ih => simp [hasSub, ih]

theorem hasSub_append (l r sub : List Char) (h : hasSub l sub = true) :
    hasSub (l ++ r) sub = true := by
  induction l with
  | nil =>
    simp only [hasSub, List.isEmpty_iff] at h
    subst h
    simpa using hasSub_nil_right r
  | cons c t ih =>
    simp only [hasSub, Bool.or_eq_true, decide_eq_true_eq] at h ⊢
    rcases h with h | h
    · left
      have h1 : sub.length = min sub.length (c :: t).length := by
        simpa [List.length_take] using congrArg List.length h
      have hlen : sub.length ≤ (c :: t).length := by
        rw [h1]
        exact min_le_right _ _
      show sub = List.take sub.length ((c :: t) ++ r)
      rw [List.take_append_eq_append_take, Nat.sub_eq_zero_of_le hlen,
        List.take_zero, List.append_nil]
      exact h
    · right
      exact ih h

theorem strContains_append (s t sub : String) (h : strContains s sub = true) :
    strContains (s ++ t) sub = true := by
  unfold strContains at h ⊢
  rw [strData_append]
  exact hasSub_append _ _ _ h

/-! ## Claim C10 -/

/-- C10: when the `API_SECRET` environment variable is unset, the process
falls back to the hard-coded default `"123456"`, and the auth gate accepts
that default both bare and `Bearer `-prefixed.  The source has no warning or
rejection path for the default (acceptance is plain `return True`), which the
model reflects by the result being exactly `AuthResult.ok`. -/
theorem c10_default_secret_accepted :
    resolveApiSecret none = "123456" ∧
    verify_api_key (resolveApiSecret none) (some "123456") = .ok ∧
    verify_api_key (resolveApiSecret none) (some "Bearer 123456") = .ok := by
  refine ⟨rfl, by decide, by decide⟩

/-! ## Claim C6 -/

/-- C6 counterexample: the claim that the gate "accepts exactly the configured
secret both as a bare token and with a `Bearer ` prefix" fails for a configured
secret that itself starts with `"Bearer "` (the prefix is stripped before
comparison, so the bare secret is rejected with 403) and for an empty secret
(an empty header is treated as missing, yielding 401). -/
theorem c6_counterexample :
    verify_api_key "Bearer x" (some "Bearer x") = .forbidden AUTH_BAD_DETAIL ∧
    verify_api_key "Bearer x" (some "Bearer x") ≠ .ok ∧
    verify_api_key "" (some "") = .unauthorized AUTH_MISSING_DETAIL ∧
    verify_api_key "" (some "") ≠ .ok := by
  refine ⟨by decide, by decide, by decide, by decide⟩

/-- C6 (amended): provided the configured secret is nonempty and does not
itself start with `"Bearer "`, the gate rejects a request with no
`Authorization` header (401), rejects any header whose extracted token
differs from the secret (never `.ok`), and accepts exactly the configured
secret both bare and with a `"Bearer "` prefix. -/
theorem c6_auth_gate (secret hdr : String)
    (hne : secret ≠ "") (hb : pyStartsWith secret "Bearer " = false)
    (hmm : extractToken hdr ≠ secret) :
    verify_api_key secret none = .unauthorized AUTH_MISSING_DETAIL ∧
    verify_api_key secret (some secret) = .ok ∧
    verify_api_key secret (some ("Bearer " ++ secret)) = .ok ∧
    verify_api_key secret (some hdr) ≠ .ok := by
  have hdata : ("Bearer " ++ secret).data = "Bearer ".data ++ secret.data :=
    strData_append _ _
  have ht : extractToken secret = secret := by
    simp [extractToken, hb]
  refine ⟨rfl, ?_, ?_, ?_⟩
  · simp only [verify_api_key]
    rw [if_neg hne, if_neg (by simp [ht, hne])]
  · have hne2 : ("Bearer " ++ secret) ≠ "" := by
      intro hcontra
      have h3 := congrArg String.data hcontra
      rw [hdata] at h3
      exact absurd h3 (by simp [show ("" : String).data = [] from rfl])
    have hsw : pyStartsWith ("Bearer " ++ secret) "Bearer " = true := by
      apply decide_eq_true
      rw [hdata]
      exact (List.take_left _ _).symm
    have hdrop : strDrop ("Bearer " ++ secret) 7 = secret := by
      unfold strDrop
      rw [hdata, show (7 : Nat) = ("Bearer " : String).data.length by decide,
        List.drop_left]
    have ht2 : extractToken ("Bearer " ++ secret) = secret := by
      unfold extractToken
      rw [hsw]
      simpa using hdrop
    simp only [verify_api_key]
    rw [if_neg hne2, if_neg (by simp [ht2, hne])]
  · simp only [verify_api_key]
    by_cases h0 : hdr = ""
    · rw [if_pos h0]
      intro hcontra
      exact AuthResult.noConfusion hcontra
    · rw [if_neg h0, if_pos (Or.inr hmm)]
      intro hcontra
      exact AuthResult.noConfusion hcontra

/-- C6 witness: the amended auth-gate theorem instantiated at the secret
`"123456"` and the mismatched header `"wrong"`. -/
theorem c6_witness :
    verify_api_key "123456" none = .unauthorized AUTH_MISSING_DETAIL ∧
    verify_api_key "123456" (some "123456") = .ok ∧
    verify_api_key "123456" (some ("Bearer " ++ "123456")) = .ok ∧
    verify_api_key "123456" (some "wrong") ≠ .ok :=
  c6_auth_gate "123456" "wrong" (by decide) (by decide) (by decide)

/-! ## Claim C2 -/

/-- C2 counterexample: a request with the unrecognized method
`"resources/list"` is answered with the successful envelope
`{jsonrpc, id, result: {}}` (line 514), not with the protocol error
`{error:{code:-32601, message:"Method not found"}}` the claim requires. -/
theorem c2_counterexample :
    mcp_endpoint env0 vEmpty ⟨"resources/list", "1", none, []⟩ = .ok "1" .empty ∧
    mcp_endpoint env0 vEmpty ⟨"resources/list", "1", none, []⟩ ≠
      .err "1" (-32601) "Method not found" := by
  exact ⟨rfl, by decide⟩

/-- C2 (amended): for every request whose method is none of `initialize`,
`tools/list` and `tools/call`, the response is the successful envelope
`{jsonrpc, id, result: {}}` with an empty result object; no `-32601`
"Method not found" error object exists in the code. -/
theorem c2_unknown_method_empty_result (env : Env) (v : Vault) (req : McpRequest)
    (h1 : req.method ≠ "initialize") (h2 : req.method ≠ "tools/list")
    (h3 : req.method ≠ "tools/call") :
    mcp_endpoint env v req = .ok req.id .empty := by
  unfold mcp_endpoint
  rw [if_neg h1, if_neg h2, if_neg h3]

/-- C2 witness: the amended unknown-method theorem instantiated at a concrete
`"prompts/list"` request. -/
theorem c2_witness :
    mcp_endpoint env0 vEmpty ⟨"prompts/list", "9", none, []⟩ = .ok "9" .empty :=
  c2_unknown_method_empty_result env0 vEmpty ⟨"prompts/list", "9", none, []⟩
    (by decide) (by decide) (by decide)

/-! ## Claim C8 -/

/-- C8: for every title whose characters all fall outside the allow-list
(word characters, whitespace, CJK ideographs, hyphen — the characters kept by
`re.sub(r'[^\w\s一-龥-]', '', title)`), the sanitized stem is empty and
`safe_save_note` derives the fallback file name
`f"{%Y%m%d}【每日总结】.md"`: date stamp, default placeholder label, `.md`
extension — never an empty stem. -/
theorem c8_empty_stem_default_filename (env : Env) (title : String)
    (h : ∀ c ∈ title.data, keptChar env c = false) :
    derivedFilename env title = env.dateStamp ++ "【每日总结】.md" := by
  have hfilter : title.data.filter (keptChar env) = [] :=
    List.filter_eq_nil_iff.mpr (by simpa using h)
  have hst : safe_title env title = "" := by
    unfold safe_title
    rw [hfilter]
    rfl
  unfold derivedFilename
  rw [hst]
  simp [get_simple_filename]

/-- C8 witness: the all-disallowed title `"!!!"` (with the ASCII `\w` oracle)
satisfies the hypothesis and produces the default-label file name. -/
theorem c8_witness :
    (∀ c ∈ ("!!!" : String).data, keptChar env0 c = false) ∧
    derivedFilename env0 "!!!" = "20260101【每日总结】.md" :=
  ⟨by decide, c8_empty_stem_default_filename env0 "!!!" (by decide)⟩

/-! ## Claim C3 -/

/-- C3 (code bug): for every filename containing `..` or `/` (the `.md`
auto-append preserves both substrings), `safe_read_note` rejects the name
before any network call — the traced flag stays `false` — but the rejection
does NOT surface as the intended 400-class `InvalidArgument`: the
`except Exception` handler catches the freshly raised HTTP 400 and re-raises
HTTP 500 with detail `"❌ 读取失败: 400: ❌ 文件名不合法"`.  The claim's
"before any network call" half holds; its "400-class InvalidArgument" half is
contradicted by the code's own blanket handler. -/
theorem c3_invalid_name_wrapped_500_no_network (env : Env) (v : Vault) (fn : String)
    (hlogin : env.login ≠ "")
    (hbad : strContains fn ".." = true ∨ strContains fn "/" = true) :
    safe_read_note_traced env v fn =
      (.httpExc 500 (READ_FAIL_MSG ++ strOfHTTPException 400 INVALID_NAME_DETAIL),
        false) := by
  have hb2 : (strContains (if pyEndsWith fn ".md" then fn else fn ++ ".md") ".." ||
      strContains (if pyEndsWith fn ".md" then fn else fn ++ ".md") "/") = true := by
    rcases hbad with hg | hg
    · have : strContains (if pyEndsWith fn ".md" then fn else fn ++ ".md") ".." = true := by
        split
        · exact hg
        · exact strContains_append _ _ _ hg
      simp [this]
    · have : strContains (if pyEndsWith fn ".md" then fn else fn ++ ".md") "/" = true := by
        split
        · exact hg
        · exact strContains_append _ _ _ hg
      simp [this]
  simp only [safe_read_note_traced]
  rw [if_neg hlogin, if_pos hb2]

/-- C3 witness: the invalid-name theorem instantiated at the failing input
`".."` with a configured environment. -/
theorem c3_witness :
    safe_read_note_traced env0 vEmpty ".." =
      (.httpExc 500 (READ_FAIL_MSG ++ strOfHTTPException 400 INVALID_NAME_DETAIL),
        false) :=
  c3_invalid_name_wrapped_500_no_network env0 vEmpty ".." (by decide)
    (Or.inl (by decide))

/-! ## Claim C9 -/

/-- C9: for every stored note, `safe_read_note` embeds at most 5000 characters
of the note's content in its reply (`f.read(5000)` followed by the marker
check): content of fewer than 5000 characters is returned in full with no
marker, and the explicit truncation marker is appended exactly when the
5000-character limit is hit (`len(content) >= 5000`). -/
theorem c9_read_truncation (env : Env) (v : Vault) (fn s : String)
    (hmd : pyEndsWith fn ".md" = true)
    (h1 : strContains fn ".." = false) (h2 : strContains fn "/" = false)
    (hlogin : env.login ≠ "") (hdl : v.download fn = .ok s) :
    safe_read_note_traced env v fn =
      (.ok ("这是你" ++ formattedDateOf fn ++ "的笔记内容：\n\n" ++ truncateContent s),
        true) ∧
    (strLen s < 5000 → truncateContent s = s) ∧
    (5000 ≤ strLen s → truncateContent s = strTake s 5000 ++ TRUNC_MARKER) ∧
    strLen (strTake s 5000) ≤ 5000 := by
  refine ⟨?_, ?_, ?_, ?_⟩
  · simp only [safe_read_note_traced]
    rw [if_pos hmd, if_neg hlogin, if_neg (by simp [h1, h2]), hdl]
  · intro hlt
    have hts : strTake s 5000 = s := by
      unfold strTake
      rw [List.take_of_length_le (Nat.le_of_lt hlt)]
    unfold truncateContent
    rw [hts, if_neg (not_le.mpr hlt)]
  · intro hge
    have hlen : strLen (strTake s 5000) = 5000 := by
      unfold strLen strTake
      simp only [List.length_take]
      exact Nat.min_eq_left hge
    have htt : strTake (strTake s 5000) 5000 = strTake s 5000 := by
      unfold strTake
      simp [List.take_take]
    unfold truncateContent
    rw [if_pos (by rw [hlen]), htt]
  · unfold strLen strTake
    simp only [List.length_take]
    exact Nat.min_le_left _ _

/-- C9 witness: reading the stored note `"20260101_x.md"` with the short
content `"hi"` returns it in full, unmarked. -/
theorem c9_witness :
    safe_read_note_traced env0 (vaultAfterUpload vEmpty "20260101_x.md" "hi")
        "20260101_x.md" =
      (.ok ("这是你" ++ formattedDateOf "20260101_x.md" ++ "的笔记内容：\n\n" ++
        truncateContent "hi"), true) ∧
    (strLen "hi" < 5000 → truncateContent "hi" = "hi") ∧
    (5000 ≤ strLen "hi" →
      truncateContent "hi" = strTake "hi" 5000 ++ TRUNC_MARKER) ∧
    strLen (strTake "hi" 5000) ≤ 5000 :=
  c9_read_truncation env0 (vaultAfterUpload vEmpty "20260101_x.md" "hi")
    "20260101_x.md" "hi" (by decide) (by decide) (by decide) (by decide) rfl

/-! ## Search-match characterization (shared by C4 and C5) -/

theorem contentMatchB_eq (kw c : String) :
    contentMatchB kw c = (exactMatchB kw c || wordMatchB kw c || charMatchB kw c) := by
  unfold contentMatchB
  cases h1 : exactMatchB kw c <;> cases h2 : wordMatchB kw c <;>
    cases h3 : charMatchB kw c <;> simp [h1, h2, h3]

theorem fileMatch_filename (v : Vault) (kw a : String) (mi : MatchInfo)
    (h : fileMatch v kw a = some mi) : mi.filename = a := by
  simp only [fileMatch] at h
  split at h
  · rw [← Option.some_inj.mp h]
  · exact Option.noConfusion h

theorem fileMatch_isSome_iff (v : Vault) (kw a : String) :
    (∃ mi, fileMatch v kw a = some mi) ↔
      (nameMatchB kw a || contentMatchB kw (read_note_content_safe v a 3000)) = true := by
  constructor
  · rintro ⟨mi, hmi⟩
    simp only [fileMatch] at hmi
    split at hmi
    · assumption
    · exact Option.noConfusion hmi
  · intro hcond
    simp only [fileMatch]
    rw [if_pos hcond]
    exact ⟨_, rfl⟩

theorem mem_searchMatches_iff (v : Vault) (files : List String) (kw f : String) :
    f ∈ (searchMatches v files kw).map MatchInfo.filename ↔
      f ∈ files ∧ pyEndsWith f ".md" = true ∧
        (nameMatchB kw f = true ∨
          exactMatchB kw (read_note_content_safe v f 3000) = true ∨
          wordMatchB kw (read_note_content_safe v f 3000) = true ∨
          charMatchB kw (read_note_content_safe v f 3000) = true) := by
  unfold searchMatches mdFilter
  simp only [List.mem_map, List.mem_filterMap, List.mem_filter]
  constructor
  · rintro ⟨mi, ⟨a, ⟨ha, hamd⟩, hfm⟩, hfn⟩
    have haf : a = f := by rw [← hfn, fileMatch_filename v kw a mi hfm]
    subst haf
    refine ⟨ha, hamd, ?_⟩
    have hcond := (fileMatch_isSome_iff v kw a).mp ⟨mi, hfm⟩
    rw [contentMatchB_eq] at hcond
    simpa [Bool.or_eq_true, or_assoc] using hcond
  · rintro ⟨ha, hamd, hcond⟩
    have hcond2 : (nameMatchB kw f ||
        contentMatchB kw (read_note_content_safe v f 3000)) = true := by
      rw [contentMatchB_eq]
      simpa [Bool.or_eq_true, or_assoc] using hcond
    obtain ⟨mi, hmi⟩ := (fileMatch_isSome_iff v kw f).mpr hcond2
    exact ⟨mi, ⟨f, ⟨ha, hamd⟩, hmi⟩, fileMatch_filename v kw f mi hmi⟩

/-! ## Claim C5 -/

/-- A vault with one note whose content is `"b c"`. -/
def v5 : Vault :=
  { listResult := .ok ["20260101_note.md"]
    download := fun f => if f = "20260101_note.md" then .ok "b c" else .error "404"
    uploadResult := fun _ => .ok () }

/-- C5 counterexample: for the keyword `"ab"` and the note
`"20260101_note.md"` with content `"b c"`, the keyword is a case-insensitive
substring of neither the file name nor the 3000-character content read, yet
the file is reported as a match (the 包含匹配 word-containment rule fires
because the content word `"b"` is contained in the keyword). -/
theorem c5_counterexample :
    "20260101_note.md" ∈
      (searchMatches v5 ["20260101_note.md"] "ab").map MatchInfo.filename ∧
    nameMatchB "ab" "20260101_note.md" = false ∧
    exactMatchB "ab" (read_note_content_safe v5 "20260101_note.md" 3000) = false := by
  refine ⟨by decide, by decide, by decide⟩

/-- C5 (amended): a `.md` file of the listing is reported as a match exactly
when the keyword is a case-insensitive substring of the file name, OR a
case-insensitive substring of the 3000-character prefix of its content read,
OR (for keywords of length at least 2) some whitespace-separated word of that
prefix contains the keyword or is contained in the keyword, OR (length at
least 2) every character of the keyword occurs somewhere in that prefix. -/
theorem c5_match_condition_characterization (v : Vault) (files : List String)
    (kw f : String) :
    f ∈ (searchMatches v files kw).map MatchInfo.filename ↔
      f ∈ files ∧ pyEndsWith f ".md" = true ∧
        (nameMatchB kw f = true ∨
          exactMatchB kw (read_note_content_safe v f 3000) = true ∨
          wordMatchB kw (read_note_content_safe v f 3000) = true ∨
          charMatchB kw (read_note_content_safe v f 3000) = true) :=
  mem_searchMatches_iff v files kw f

/-! ## Claim C4 -/

/-- A vault with one unreadable note (whose name contains the keyword) and
one readable one. -/
def v4 : Vault :=
  { listResult := .ok ["20260101_abc.md", "20260101_xyz.md"]
    download := fun f => if f = "20260101_xyz.md" then .ok "hello abc"
      else .error "network boom"
    uploadResult := fun _ => .ok () }

/-- C4 counterexample: the note `"20260101_abc.md"` is unreadable (its
download fails), yet it is NOT excluded from the search results for keyword
`"abc"` — `read_note_content_safe` swallows the failure into the string
`"读取失败: …"` and the file still matches by file name. -/
theorem c4_counterexample :
    v4.download "20260101_abc.md" = .error "network boom" ∧
    "20260101_abc.md" ∈
      (searchMatches v4 ["20260101_abc.md", "20260101_xyz.md"] "abc").map
        MatchInfo.filename := by
  exact ⟨rfl, by decide⟩

/-- C4 (amended): per-file read failures never raise past the repository
boundary — the whole search returns normally — but the unreadable file is not
skipped: `read_note_content_safe` replaces its content by the error string
`"读取失败: …"` and the file is still evaluated (so it can appear in the
results, e.g. by file-name match, as the counterexample shows); matched files
with readable content are still returned. -/
theorem c4_search_survives_unreadable_file (env : Env) (v : Vault)
    (files : List String) (kw f s e : String)
    (hlogin : env.login ≠ "") (hlist : v.listResult = .ok files)
    (hmem : f ∈ files) (hmd : pyEndsWith f ".md" = true) :
    (enhanced_natural_search_notes env v kw).isOk = true ∧
    (v.download f = .error e → read_note_content_safe v f 3000 = "读取失败: " ++ e) ∧
    (v.download f = .ok s →
      (nameMatchB kw f = true ∨ exactMatchB kw (strTake s 3000) = true ∨
        wordMatchB kw (strTake s 3000) = true ∨ charMatchB kw (strTake s 3000) = true) →
      f ∈ (searchMatches v files kw).map MatchInfo.filename) := by
  refine ⟨?_, ?_, ?_⟩
  · simp only [enhanced_natural_search_notes]
    rw [if_neg hlogin, hlist]
    show (if (mdFilter files).isEmpty = true then PyResult.ok NO_NOTES_MSG
      else PyResult.ok (renderSearchReply kw (searchMatches v files kw))).isOk = true
    split <;> rfl
  · intro hE
    unfold read_note_content_safe
    rw [hE]
  · intro hok hcond
    apply (mem_searchMatches_iff v files kw f).mpr
    refine ⟨hmem, hmd, ?_⟩
    have hr : read_note_content_safe v f 3000 = strTake s 3000 := by
      unfold read_note_content_safe
      rw [hok]
    rw [hr]
    exact hcond

/-- C4 witness: the amended theorem instantiated on the two-file vault with
one unreadable note, the readable matched note `"20260101_xyz.md"`, and
keyword `"abc"`. -/
theorem c4_witness :
    (enhanced_natural_search_notes env0 v4 "abc").isOk = true ∧
    (v4.download "20260101_xyz.md" = .error "network boom" →
      read_note_content_safe v4 "20260101_xyz.md" 3000 = "读取失败: " ++ "network boom") ∧
    (v4.download "20260101_xyz.md" = .ok "hello abc" →
      (nameMatchB "abc" "20260101_xyz.md" = true ∨
        exactMatchB "abc" (strTake "hello abc" 3000) = true ∨
        wordMatchB "abc" (strTake "hello abc" 3000) = true ∨
        charMatchB "abc" (strTake "hello abc" 3000) = true) →
      "20260101_xyz.md" ∈
        (searchMatches v4 ["20260101_abc.md", "20260101_xyz.md"] "abc").map
          MatchInfo.filename) :=
  c4_search_survives_unreadable_file env0 v4 ["20260101_abc.md", "20260101_xyz.md"]
    "abc" "20260101_xyz.md" "hello abc" "network boom" (by decide) rfl
    (by decide) (by decide)

/-! ## Claim C1 -/

/-- C1 counterexample: a `tools/call` of `read_memory` with the traversal
filename `".."` fails inside the tool (`safe_read_note` raises an
`HTTPException`), and the dispatcher returns the protocol-level error envelope
`{error:{code:-32000, message:…}}` — not a successful text envelope — because
`except HTTPException` precedes the catch-all text rendering. -/
theorem c1_counterexample :
    mcp_endpoint env0 vEmpty ⟨"tools/call", "7", some "read_memory", [("filename", "..")]⟩ =
      .err "7" (-32000) (READ_FAIL_MSG ++ strOfHTTPException 400 INVALID_NAME_DETAIL) ∧
    (mcp_endpoint env0 vEmpty
        ⟨"tools/call", "7", some "read_memory", [("filename", "..")]⟩).isTextResult =
      false := by
  exact ⟨rfl, rfl⟩

/-- C1 (amended): every `tools/call` response is either a successful text
envelope or a protocol-level error envelope with code `-32000`, and the error
envelope occurs exactly when the tool execution raises an `HTTPException`
(storage misconfiguration, save failure, read failure — including invalid
file names); only non-`HTTPException` exceptions are rendered as successful
text envelopes. -/
theorem c1_toolcall_envelope_dichotomy (env : Env) (v : Vault) (req : McpRequest)
    (h : req.method = "tools/call") :
    ((mcp_endpoint env v req).isTextResult = true ∨
      (mcp_endpoint env v req).errCode = some (-32000)) ∧
    ((mcp_endpoint env v req).errCode = some (-32000) ↔
      (toolOutcome env v req.toolName req.arguments).isHttpExc = true) := by
  unfold mcp_endpoint
  rw [h, if_neg (by decide), if_neg (by decide), if_pos rfl]
  cases hout : toolOutcome env v req.toolName req.arguments <;>
    simp [McpResponse.isTextResult, McpResponse.errCode, PyResult.isHttpExc]

/-- C1 witness: the envelope dichotomy instantiated on a concrete
`get_world_time` call. -/
theorem c1_witness :
    ((mcp_endpoint env0 vEmpty ⟨"tools/call", "3", some "get_world_time", []⟩).isTextResult =
        true ∨
      (mcp_endpoint env0 vEmpty ⟨"tools/call", "3", some "get_world_time", []⟩).errCode =
        some (-32000)) ∧
    ((mcp_endpoint env0 vEmpty ⟨"tools/call", "3", some "get_world_time", []⟩).errCode =
        some (-32000) ↔
      (toolOutcome env0 vEmpty (some "get_world_time") []).isHttpExc = true) :=
  c1_toolcall_envelope_dichotomy env0 vEmpty
    ⟨"tools/call", "3", some "get_world_time", []⟩ rfl

/-! ## Claim C7: cache lemmas -/

theorem find?_eraseP_of_disjoint {α : Type} (p q : α → Bool) (l : List α)
    (h : ∀ x, p x = true → q x = true → False) :
    (l.eraseP q).find? p = l.find? p := by
  induction l with
  | nil => rfl
  | cons a t ih =>
    cases hqa : q a with
    | true =>
      have hpa : p a = false := by
        cases hpa : p a with
        | true => exact absurd (h a hpa hqa) not_false
        | false => rfl
      rw [List.eraseP_cons, hqa]
      simp only [cond_true]
      rw [List.find?_cons_of_neg _ (by simp [hpa])]
    | false =>
      rw [List.eraseP_cons, hqa]
      simp only [cond_false]
      cases hpa : p a with
      | true =>
        rw [List.find?_cons_of_pos _ hpa, List.find?_cons_of_pos _ hpa]
      | false =>
        rw [List.find?_cons_of_neg _ (by simp [hpa]),
          List.find?_cons_of_neg _ (by simp [hpa])]
        exact ih

theorem find?_take_some {α : Type} (p : α → Bool) (l : List α) (n : Nat) (x : α)
    (h : (l.take n).find? p = some x) : l.find? p = some x := by
  induction l generalizing n with
  | nil => simp at h
  | cons a t ih =>
    cases n with
    | zero => simp at h
    | succ m =>
      rw [List.take_succ_cons] at h
      cases hpa : p a with
      | true =>
        rw [List.find?_cons_of_pos _ hpa] at h ⊢
        exact h
      | false =>
        rw [List.find?_cons_of_neg _ (by simp [hpa])] at h ⊢
        exact ih m h

theorem cacheGet_after_search (env : Env) (st : PState) (k r : String)
    (h : (stepOp env st (.search k)).1 = .ok r) :
    cacheGet ((stepOp env st (.search k)).2).cache k = some r := by
  cases hfind : st.cache.find? (fun q => q.1 == k) with
  | some p =>
    have hhit : lruHit st.cache k =
        some (p.2, (k, p.2) :: st.cache.eraseP (fun q => q.1 == k)) := by
      simp [lruHit, hfind]
    simp only [stepOp, hhit] at h ⊢
    have hp : p.2 = r := by simpa using h
    unfold cacheGet
    rw [List.find?_cons_of_pos _ (by simp)]
    simpa using hp
  | none =>
    have hmiss : lruHit st.cache k = none := by
      simp [lruHit, hfind]
    cases hs : enhanced_natural_search_notes env st.vault k with
    | ok t =>
      simp only [stepOp, hmiss, hs] at h ⊢
      have ht : t = r := by simpa using h
      rw [show (128 : Nat) = 127 + 1 from rfl, List.take_succ_cons]
      unfold cacheGet
      rw [List.find?_cons_of_pos _ (by simp)]
      simpa using ht
    | httpExc c d =>
      simp only [stepOp, hmiss, hs] at h
      exact absurd h (by simp)
    | exc m =>
      simp only [stepOp, hmiss, hs] at h
      exact absurd h (by simp)

theorem search_hit_result (env : Env) (st : PState) (k r : String)
    (h : cacheGet st.cache k = some r) :
    (stepOp env st (.search k)).1 = .ok r := by
  unfold cacheGet at h
  cases hfind : st.cache.find? (fun q => q.1 == k) with
  | none =>
    rw [hfind] at h
    exact Option.noConfusion h
  | some p =>
    rw [hfind] at h
    have hp : p.2 = r := by simpa using h
    have hhit : lruHit st.cache k =
        some (p.2, (k, p.2) :: st.cache.eraseP (fun q => q.1 == k)) := by
      simp [lruHit, hfind]
    simp only [stepOp, hhit]
    rw [hp]

theorem cacheGet_preserved (env : Env) (st : PState) (k r : String) (o : Op)
    (h : cacheGet st.cache k = some r)
    (hkeep : cacheHasKey ((stepOp env st o).2).cache k = true) :
    cacheGet ((stepOp env st o).2).cache k = some r := by
  cases o with
  | save title content => simpa [stepOp] using h
  | search k2 =>
    by_cases hk : k2 = k
    · subst hk
      unfold cacheGet at h
      cases hfind : st.cache.find? (fun q => q.1 == k2) with
      | none =>
        rw [hfind] at h
        exact Option.noConfusion h
      | some p =>
        rw [hfind] at h
        have hp : p.2 = r := by simpa using h
        have hhit : lruHit st.cache k2 =
            some (p.2, (k2, p.2) :: st.cache.eraseP (fun q => q.1 == k2)) := by
          simp [lruHit, hfind]
        simp only [stepOp, hhit]
        unfold cacheGet
        rw [List.find?_cons_of_pos _ (by simp)]
        simpa using hp
    · have hdisj : ∀ x : String × String,
          (x.1 == k) = true → (x.1 == k2) = true → False := by
        intro x h1 h2
        exact hk ((eq_of_beq h2).symm.trans (eq_of_beq h1))
      cases hfind2 : st.cache.find? (fun q => q.1 == k2) with
      | some p =>
        have hhit : lruHit st.cache k2 =
            some (p.2, (k2, p.2) :: st.cache.eraseP (fun q => q.1 == k2)) := by
          simp [lruHit, hfind2]
        simp only [stepOp, hhit]
        unfold cacheGet at h ⊢
        rw [List.find?_cons_of_neg _ (by simp [hk]),
          find?_eraseP_of_disjoint _ _ _ hdisj]
        exact h
      | none =>
        have hmiss : lruHit st.cache k2 = none := by
          simp [lruHit, hfind2]
        cases hs : enhanced_natural_search_notes env st.vault k2 with
        | ok t =>
          simp only [stepOp, hmiss, hs] at hkeep ⊢
          unfold cacheHasKey at hkeep
          obtain ⟨x, hx⟩ := Option.isSome_iff_exists.mp hkeep
          have hx2 := find?_take_some _ _ _ _ hx
          rw [List.find?_cons_of_neg _ (by simp [hk])] at hx2
          unfold cacheGet at h ⊢
          rw [hx2] at h
          rw [hx]
          exact h
        | httpExc c d =>
          simp only [stepOp, hmiss, hs]
          exact h
        | exc m =>
          simp only [stepOp, hmiss, hs]
          exact h

theorem runOps_keeps_binding (env : Env) (k r : String) (mid : List Op) :
    ∀ st : PState, cacheGet st.cache k = some r →
      (∀ n, n ≤ mid.length → cacheHasKey ((runOps env st (mid.take n)).cache) k = true) →
      cacheGet ((runOps env st mid).cache) k = some r := by
  induction mid with
  | nil =>
    intro st h _
    simpa [runOps] using h
  | cons o rest ih =>
    intro st h hkeep
    have h1 : cacheHasKey ((stepOp env st o).2).cache k = true := by
      have h1a := hkeep 1 (by simp)
      simpa [runOps, List.take_succ_cons] using h1a
    have h2 := cacheGet_preserved env st k r o h h1
    have hkeep2 : ∀ n, n ≤ rest.length →
        cacheHasKey ((runOps env (stepOp env st o).2 (rest.take n)).cache) k = true := by
      intro n hn
      have h2a := hkeep (n + 1) (by simpa using Nat.succ_le_succ hn)
      simpa [runOps, List.take_succ_cons] using h2a
    have h3 := ih (stepOp env st o).2 h2 hkeep2
    simpa [runOps] using h3

/-! ## Claim C7 -/

/-- An initially empty, fully reachable vault used for the cache scenarios. -/
def c7Vault : Vault :=
  { listResult := .ok []
    download := fun _ => .error "404 Not Found"
    uploadResult := fun _ => .ok () }

/-- 128 searches with pairwise distinct keywords `k0`, …, `k127`. -/
def c7KOps : List Op := (List.range 128).map (fun n => Op.search ("k" ++ toString n))

/-- The operations run between the two `"aa"` searches: 128 distinct-keyword
searches followed by one successful save. -/
def c7Mid : List Op := c7KOps ++ [Op.save "aa" "hello"]

/-- C7 counterexample: two searches for the literal keyword `"aa"` within one
process lifetime whose results differ.  The first search caches the
empty-vault reply; the 128 intervening distinct-keyword searches evict the
`"aa"` entry from the capacity-128 LRU cache; a save succeeds in between; the
second `"aa"` search therefore recomputes against the changed store and
returns a different rendered text. -/
theorem c7_counterexample :
    (stepOp env0 ⟨c7Vault, []⟩ (.search "aa")).1 = .ok NO_NOTES_MSG ∧
    (stepOp env0 (runOps env0 (stepOp env0 ⟨c7Vault, []⟩ (.search "aa")).2 c7KOps)
        (.save "aa" "hello")).1 =
      .ok "✅ 笔记已保存！\n📁 文件名: 20260101_aa.md\n📅 时间: 00:00" ∧
    (stepOp env0 (runOps env0 (stepOp env0 ⟨c7Vault, []⟩ (.search "aa")).2 c7Mid)
        (.search "aa")).1 ≠ .ok NO_NOTES_MSG := by
  refine ⟨by decide, ?_, ?_⟩ <;> set_option maxRecDepth 100000 in decide

/-- C7 (amended): a second search call with the same literal keyword returns
the identical rendered result text provided the keyword's cache entry is not
evicted in between (the LRU cache holds at most 128 entries); in particular
intervening saves never touch the cache — entries are never invalidated on
note creation — so a successful save alone cannot change the result. -/
theorem c7_cache_stability (env : Env) (st : PState) (k r : String) (mid : List Op)
    (h1 : (stepOp env st (.search k)).1 = .ok r)
    (h2 : ∀ n, n ≤ mid.length →
      cacheHasKey ((runOps env (stepOp env st (.search k)).2 (mid.take n)).cache) k = true) :
    (stepOp env (runOps env (stepOp env st (.search k)).2 mid) (.search k)).1 = .ok r := by
  have hA := cacheGet_after_search env st k r h1
  have hB := runOps_keeps_binding env k r mid (stepOp env st (.search k)).2 hA h2
  exact search_hit_result env _ k r hB

/-- C7 witness: cache stability across an intervening successful save — the
second `"aa"` search still returns the first call's rendered text. -/
theorem c7_witness :
    (stepOp env0 (runOps env0 (stepOp env0 ⟨c7Vault, []⟩ (.search "aa")).2
        [Op.save "t" "c"]) (.search "aa")).1 = .ok NO_NOTES_MSG :=
  c7_cache_stability env0 ⟨c7Vault, []⟩ "aa" NO_NOTES_MSG [Op.save "t" "c"]
    (by decide) (by decide)
